import Mathlib

/-!
Verification of the conversational-memory and task-extraction layer
(backend/services/memory_system.py and backend/services/task_extractor.py,
with supporting models of conversation_manager.py and ai_prompt_system.py).

Shallow embedding conventions:
- Python floats are modelled as exact rationals.
- The embedding model, the completion model and the JSON parser are external
  collaborators; they enter the model as function or `Except`-valued
  parameters.  Collaborator calls that can raise are modelled as
  `Except String`, and each `try/except` block of the source is embedded as
  an explicit match on such an outcome.
- `datetime` instants are modelled as absolute day counts (`Nat` days since
  0001-01-01 of the proleptic Gregorian calendar, so that day `n` has Python
  weekday `n % 7` with Monday = 0), with civil (year, month, day) views
  provided by `daysFromCivil` and `civilFromDays`.
- Mongo documents are structures; a field that may be absent is an `Option`.
-/

set_option maxRecDepth 8192

namespace AIM

/-- Python substring test `needle in hay`: contiguous infix of characters. -/
def substrOf (needle hay : String) : Bool :=
  decide (needle.toList <:+: hay.toList)

/-- Python `str.lower()` (character-wise, as `String.toLower`). -/
def pyLower (s : String) : String :=
  String.mk (s.data.map Char.toLower)

/-- Whitespace stripping of a character list from both ends. -/
def trimChars (l : List Char) : List Char :=
  ((l.dropWhile Char.isWhitespace).reverse.dropWhile Char.isWhitespace).reverse

/-- Python `str.strip()` (as `String.trim`). -/
def pyTrim (s : String) : String :=
  String.mk (trimChars s.data)

/-- Split a character list at every character satisfying `p`, keeping empty
pieces, as `re.split` over a character class does. -/
def splitChars (p : Char → Bool) : List Char → List (List Char)
  | [] => [[]]
  | c :: rest =>
    match splitChars p rest with
    | [] => [[]]
    | h :: t => if p c then [] :: h :: t else (c :: h) :: t

/-- Python `s.split(p)`-style splitting of a string, keeping empty pieces. -/
def pySplit (p : Char → Bool) (s : String) : List String :=
  (splitChars p s.data).map String.mk

/-- Replace every non-overlapping occurrence of `needle` (left to right) by
`repl`, fuel-bounded by the text length; Python `str.replace`. -/
def replaceFuel (needle repl : List Char) : Nat → List Char → List Char
  | 0, hay => hay
  | _ + 1, [] => []
  | fuel + 1, c :: rest =>
    if needle.isPrefixOf (c :: rest) then
      repl ++ replaceFuel needle repl fuel ((c :: rest).drop needle.length)
    else c :: replaceFuel needle repl fuel rest

/-- Python `s.replace(needle, repl)`. -/
def pyReplace (s needle repl : String) : String :=
  String.mk (replaceFuel needle.data repl.data s.data.length s.data)

/-- Python `s.startswith(pre)`. -/
def pyStartsWith (s pre : String) : Bool :=
  pre.data.isPrefixOf s.data

/-- Drop the first `n` characters of a string. -/
def pyDrop (s : String) (n : Nat) : String :=
  String.mk (s.data.drop n)

/-- Python `s.lower().split()`: lower-case, split on runs of whitespace,
dropping empty pieces. -/
def pyWords (s : String) : List String :=
  (pySplit Char.isWhitespace (pyLower s)).filter (fun w => w ≠ "")

/-- Python `set(s.lower().split())`. -/
def wordSet (s : String) : Finset String :=
  (pyWords s).toFinset

/-- Python `str.capitalize()` on a string: first character upper-cased, the
rest lower-cased. -/
def pyCapitalize (s : String) : String :=
  match s.toList with
  | [] => ""
  | c :: rest => String.mk (c.toUpper :: rest.map Char.toLower)

-- Calendar arithmetic (proleptic Gregorian, days since 0001-01-01).

/-- Gregorian leap-year test. -/
def isLeap (y : Nat) : Bool :=
  (y % 4 == 0 && y % 100 != 0) || y % 400 == 0

/-- Number of days in a month of a given year. -/
def daysInMonth (y m : Nat) : Nat :=
  if m = 2 then (if isLeap y then 29 else 28)
  else if m = 4 ∨ m = 6 ∨ m = 9 ∨ m = 11 then 30
  else 31

/-- Number of leap years among years 1..y. -/
def leapCount (y : Nat) : Nat :=
  y / 4 - y / 100 + y / 400

/-- Absolute day number (days since 0001-01-01) of a civil date. -/
def daysFromCivil (y m d : Nat) : Nat :=
  365 * (y - 1) + leapCount (y - 1)
    + (((List.range (m - 1)).map (fun i => daysInMonth y (i + 1))).sum)
    + (d - 1)

/-- Civil date (year, month, day) of an absolute day number. -/
def civilFromDays (n : Nat) : Nat × Nat × Nat :=
  let z := n + 306
  let era := z / 146097
  let doe := z % 146097
  let yoe := (doe - doe / 1460 + doe / 36524 - doe / 146096) / 365
  let y := yoe + era * 400
  let doy := doe - (365 * yoe + yoe / 4 - yoe / 100)
  let mp := (5 * doy + 2) / 153
  let d := doy - (153 * mp + 2) / 5 + 1
  let m := if mp < 10 then mp + 3 else mp - 9
  (if m ≤ 2 then y + 1 else y, m, d)

/-- Zero-padded decimal rendering with a minimal width. -/
def padNum (width n : Nat) : String :=
  let s := toString n
  String.mk (List.replicate (width - s.length) '0') ++ s

/-- Python `strftime("%Y-%m-%d")` on an absolute day number. -/
def dayToIso (n : Nat) : String :=
  let c := civilFromDays n
  padNum 4 c.1 ++ "-" ++ padNum 2 c.2.1 ++ "-" ++ padNum 2 c.2.2

/-- Python `datetime.weekday()` (Monday = 0) of an absolute day number. -/
def weekdayOf (n : Nat) : Nat := n % 7

-- MemorySystem (backend/services/memory_system.py).

/-- One document of the `conversation_memory` collection.  Fields that a
stored document may lack (`embedding`, `importance_score`) are `Option`;
`timestamp` is an absolute day count. -/
structure MemRecord where
  embedding : Option (List ℚ)
  importance_score : Option ℚ
  timestamp : Int
  deriving Repr, DecidableEq

/-- Keyword list of `_calculate_importance_score`. -/
def importanceKeywords : List String :=
  ["important", "urgent", "objectif", "goal", "décision", "problème",
   "solution", "projet", "plan", "échéance", "deadline"]

/-- Embeds `_calculate_importance_score` (memory_system.py lines 334-352),
success path: count the keywords present in the lower-cased concatenation,
base score capped at 0.8, length bonus capped at 0.2, total capped at 1. -/
def calculateImportanceScore (message response : String) : ℚ :=
  let combined := pyLower (message ++ " " ++ response)
  let keywordMatches := (importanceKeywords.filter (fun k => substrOf k combined)).length
  let baseScore := min ((keywordMatches : ℚ) * (2/10)) (8/10)
  let lengthBonus := min ((combined.length : ℚ) / 1000) (2/10)
  min (baseScore + lengthBonus) 1

/-- Embeds the `try/except` wrapper of `_calculate_importance_score`: an
internal failure is absorbed and replaced by the default score 0.5. -/
def importanceScoreGuard (outcome : Except Unit ℚ) : ℚ :=
  match outcome with
  | .ok v => v
  | .error _ => 1/2

/-- Sort key of `retrieve_relevant_memories` (memory_system.py line 104):
`similarity_score * 0.7 + memory.get(importance_score, 0.5) * 0.3`. -/
def sortKey (p : MemRecord × ℚ) : ℚ :=
  p.2 * (7/10) + (p.1.importance_score.getD (1/2)) * (3/10)

/-- Filtering loop of `retrieve_relevant_memories` (lines 86-100): skip
records without an `embedding` field, compute the similarity of the query
embedding against the record embedding, keep records whose similarity is at
least `minSimilarity`, attaching the similarity score. -/
def relevantFilter (sim : List ℚ → List ℚ → ℚ) (queryEmbedding : List ℚ)
    (memories : List MemRecord) (minSimilarity : ℚ) : List (MemRecord × ℚ) :=
  memories.filterMap (fun memory =>
    match memory.embedding with
    | none => none
    | some e =>
      let similarity := sim queryEmbedding e
      if minSimilarity ≤ similarity then some (memory, similarity) else none)

/-- Embeds `retrieve_relevant_memories` (memory_system.py lines 67-112).
The embedding model and the cosine-similarity kernel (numpy and sklearn
floating-point collaborators) are abstracted as the function `sim` applied
to the already-computed query embedding; `memories` is the list the
database returned for the user (most recent 50, most recent first).  The
surviving records are sorted by `sortKey` descending (Python stable sort
with `reverse=True`) and the first `limit` are returned. -/
def retrieveRelevantMemories (sim : List ℚ → List ℚ → ℚ) (queryEmbedding : List ℚ)
    (memories : List MemRecord) (limit : Nat) (minSimilarity : ℚ) : List (MemRecord × ℚ) :=
  if memories.isEmpty then []
  else
    let relevant := relevantFilter sim queryEmbedding memories minSimilarity
    (relevant.mergeSort (fun a b => decide (sortKey b ≤ sortKey a))).take limit

/-- Deletion predicate of `cleanup_old_memories` (memory_system.py lines
486-491): `timestamp` strictly before the cutoff AND `importance_score`
strictly below 0.7.  Mongo `$lt` does not match a missing field, so a
record without an `importance_score` is never deleted. -/
def cleanupShouldDelete (cutoff : Int) (r : MemRecord) : Bool :=
  decide (r.timestamp < cutoff) &&
    (match r.importance_score with
     | some v => decide (v < 7/10)
     | none => false)

/-- Embeds `cleanup_old_memories` (memory_system.py lines 480-498): the
cutoff is `now - timedelta(days=daysToKeep)`, i.e. exact day subtraction;
returns the remaining store and the deleted count. -/
def cleanupOldMemories (store : List MemRecord) (now : Int) (daysToKeep : Nat) :
    List MemRecord × Nat :=
  let cutoff : Int := now - daysToKeep
  (store.filter (fun r => !(cleanupShouldDelete cutoff r)),
   (store.filter (cleanupShouldDelete cutoff)).length)

/-- Cutoff computation shared by `cleanup_old_memories` (line 483),
`get_memory_analytics` (line 442) and `get_extraction_analytics`
(task_extractor.py line 426): `datetime.utcnow() - timedelta(days=days)`,
which on absolute day counts is plain subtraction and is total. -/
def timedeltaCutoff (now : Int) (days : Nat) : Int :=
  now - days

/-- Analytics window of `get_memory_analytics` (memory_system.py lines
439-457): records with `timestamp >= cutoff` where the cutoff is
`timedeltaCutoff`. -/
def memoryAnalyticsWindow (store : List MemRecord) (now : Int) (days : Nat) :
    List MemRecord :=
  store.filter (fun r => decide (timedeltaCutoff now days ≤ r.timestamp))

/-- Embeds `_trigger_memory_synthesis` (memory_system.py lines 423-437).
The collaborator outcomes (document count, profile update) are arguments;
the whole body is inside `try/except`, so the trigger always returns,
reporting only whether a synthesis ran. -/
def triggerMemorySynthesis (countResult : Except String Nat)
    (profileUpdate : Except String Unit) : Bool :=
  match countResult with
  | .error _ => false
  | .ok n =>
    if n > 0 ∧ n % 50 = 0 then
      match profileUpdate with
      | _ => true
    else false

/-- Embeds `store_conversation_memory` (memory_system.py lines 26-65).
`embedResult` and `insertResult` are the collaborator outcomes of the
embedding call and the database insert; a failure of either is caught by
the top-level `try/except` and reported as `false`.  The synthesis trigger
runs after the insert and absorbs its own failures, so its outcomes never
affect the returned boolean. -/
def storeConversationMemory (message response : String) (now : Int)
    (embedResult : Except String (List ℚ)) (insertResult : Except String Unit)
    (countResult : Except String Nat) (profileUpdate : Except String Unit) : Bool :=
  match embedResult with
  | .error _ => false
  | .ok emb =>
    let _entry : MemRecord :=
      { embedding := some emb,
        importance_score := some (calculateImportanceScore message response),
        timestamp := now }
    match insertResult with
    | .error _ => false
    | .ok _ =>
      let _ := triggerMemorySynthesis countResult profileUpdate
      true

-- Day-of-month cutoff arithmetic (conversation_manager.py lines 146-148 and
-- ai_prompt_system.py lines 251-253).

/-- Embeds `datetime.utcnow().replace(day=datetime.utcnow().day - days)`:
direct subtraction of the day count from the calendar day-of-month.
Python `replace` raises `ValueError` (modelled as `none`) unless the new
day is between 1 and the length of the month. -/
def replaceDayCutoff (y m d days : Nat) : Option (Nat × Nat × Nat) :=
  let newDay : Int := (d : Int) - (days : Int)
  if 1 ≤ newDay ∧ newDay ≤ (daysInMonth y m : Int) then some (y, m, newDay.toNat)
  else none

/-- One document of the `conversations` collection, with the fields read by
`cleanup_inactive_conversations`. -/
structure Conversation where
  last_message_at : Int
  is_active : Bool
  message_count : Nat
  deriving Repr, DecidableEq

/-- Embeds `cleanup_inactive_conversations` (conversation_manager.py lines
143-168): the cutoff uses the day-of-month subtraction `replaceDayCutoff`;
when that raises (underflow), the surrounding `except` returns 0, so no
conversation is deactivated. -/
def cleanupInactiveConversations (conversations : List Conversation)
    (y m d daysThreshold : Nat) : Nat :=
  match replaceDayCutoff y m d daysThreshold with
  | none => 0
  | some cutoff =>
    let cutoffDay : Int := (daysFromCivil cutoff.1 cutoff.2.1 cutoff.2.2 : Int)
    (conversations.filter (fun c =>
      decide (c.last_message_at < cutoffDay) && c.is_active && decide (c.message_count = 0))).length

-- TaskExtractor (backend/services/task_extractor.py).

/-- An extracted task.  Dict keys that may be absent or null are `Option`;
`confidence` is `Option` because `_calculate_confidence` reads it with
`task.get(confidence, 0.5)`. -/
structure Task where
  title : String
  description : String
  priority : String
  estimated_date : Option String
  extraction_method : String
  confidence : Option ℚ
  related_goal_id : Option String := none
  related_goal_title : Option String := none
  category : Option String := none
  deriving Repr, DecidableEq

/-- A document of the `goals` collection, with the fields read during
enrichment (`description` read with `goal.get(description, )`). -/
structure Goal where
  id : String
  title : String
  description : String
  deriving Repr, DecidableEq

/-- Action-verb list of `_init_task_patterns`. -/
def actionVerbs : List String :=
  ["faire", "créer", "développer", "apprendre", "étudier", "lire", "écrire",
   "planifier", "organiser", "préparer", "rechercher", "analyser", "contacter",
   "appeler", "envoyer", "acheter", "vendre", "terminer", "finir", "commencer",
   "démarrer", "installer", "configurer", "tester", "vérifier", "réviser"]

/-- Priority-indicator table of `_init_task_patterns`, in insertion order. -/
def priorityIndicators : List (String × List String) :=
  [("haute", ["urgent", "important", "priorité", "critique", "immédiat", "crucial"]),
   ("moyenne", ["normal", "standard", "moyen", "régulier"]),
   ("basse", ["quand possible", "si temps", "optionnel", "bonus", "plus tard"])]

/-- Weekday-name table of `_extract_date_from_sentence`, in insertion
order, Monday = 0. -/
def daysMap : List (String × Nat) :=
  [("lundi", 0), ("mardi", 1), ("mercredi", 2), ("jeudi", 3),
   ("vendredi", 4), ("samedi", 5), ("dimanche", 6)]

/-- Embeds `_extract_date_from_sentence` (task_extractor.py lines 149-183)
over absolute day numbers: the five literal cues map to fixed offsets, then
the first weekday name present (in table order) maps to the next strictly
future day with that weekday. -/
def extractDateFromSentence (sentence : String) (today : Nat) : Option Nat :=
  if substrOf "aujourd\x27hui" sentence then some today
  else if substrOf "demain" sentence then some (today + 1)
  else if substrOf "cette semaine" sentence then some (today + 3)
  else if substrOf "la semaine prochaine" sentence then some (today + 7)
  else if substrOf "ce mois" sentence then some (today + 15)
  else
    match daysMap.find? (fun p => substrOf p.1 sentence) with
    | some p =>
      let daysAhead : Int := (p.2 : Int) - (weekdayOf today : Int)
      let daysAhead := if daysAhead ≤ 0 then daysAhead + 7 else daysAhead
      some (today + daysAhead.toNat)
    | none => none

/-- Embeds the priority scan of `_parse_task_from_sentence` (lines
127-131): first priority whose indicator list has a member contained in
the sentence, default `moyenne`. -/
def detectPriority (sentence : String) : String :=
  match priorityIndicators.find? (fun p => p.2.any (fun ind => substrOf ind sentence)) with
  | some p => p.1
  | none => "moyenne"

/-- Embeds the title cleanup of `_parse_task_from_sentence` (lines
120-121): remove every occurrence of the action verb, strip, remove one
leading filler phrase, strip. -/
def titleFromSentence (sentence actionVerb : String) : String :=
  let title := pyTrim (pyReplace sentence actionVerb "")
  let fillers := ["je vais", "je dois", "il faut", "je veux"]
  let title :=
    match fillers.find? (fun f => pyStartsWith title f) with
    | some f => pyDrop title f.length
    | none => title
  pyTrim title

/-- Embeds `_parse_task_from_sentence` (task_extractor.py lines 116-147):
discard when the cleaned title is shorter than 3 characters, otherwise
build a rule task with confidence 0.7. -/
def parseTaskFromSentence (sentence actionVerb : String) (today : Nat) : Option Task :=
  let title := titleFromSentence sentence actionVerb
  if title.length < 3 then none
  else some
    { title := pyCapitalize title,
      description := sentence,
      priority := detectPriority sentence,
      estimated_date := (extractDateFromSentence sentence today).map dayToIso,
      extraction_method := "rules",
      confidence := some (7/10) }

/-- Embeds `_extract_by_rules` (task_extractor.py lines 81-114): lower-case
and strip the message, split on the sentence delimiters, drop stripped
sentences shorter than 5 characters, keep the first action verb contained
in each sentence, parse a task from it. -/
def extractByRules (message : String) (today : Nat) : List Task :=
  let messageClean := pyTrim (pyLower message)
  let sentences := pySplit (fun c => c == '.' || c == '!' || c == '?') messageClean
  sentences.filterMap (fun s0 =>
    let sentence := pyTrim s0
    if sentence.length < 5 then none
    else
      match actionVerbs.find? (fun verb => substrOf verb sentence) with
      | none => none
      | some verb => parseTaskFromSentence sentence verb today)

/-- Embeds `_extract_by_ai` (task_extractor.py lines 185-250).  The
completion call is the collaborator outcome `completionResult`; `parse`
abstracts `json.loads` plus the `tasks` field access, `none` meaning a
`JSONDecodeError`.  A completion failure or a parse failure is caught and
yields zero tasks; on success every task is tagged with extraction
method `ai`. -/
def extractByAi (completionResult : Except String String)
    (parse : String → Option (List Task)) : List Task :=
  match completionResult with
  | .error _ => []
  | .ok text =>
    match parse text with
    | none => []
    | some tasks => tasks.map (fun t => { t with extraction_method := "ai" })

/-- Python truthiness of an `estimated_date` value: absent, null or the
empty string are falsy. -/
def dateFalsy (d : Option String) : Bool :=
  match d with
  | none => true
  | some s => s.isEmpty

/-- Backfill step of `_merge_task_extractions` (lines 268-270): when the
already-merged duplicate has no (truthy) `estimated_date` and the rule task
has one, copy the rule task date onto the duplicate. -/
def backfillDate (mergedTask ruleTask : Task) : Task :=
  if dateFalsy mergedTask.estimated_date && !dateFalsy ruleTask.estimated_date then
    { mergedTask with estimated_date := ruleTask.estimated_date }
  else mergedTask

/-- Embeds `_are_tasks_similar` (task_extractor.py lines 282-300): Jaccard
similarity of the lower-cased space-split word sets of the two titles,
strictly above 0.5; false when either word set is empty. -/
def areTasksSimilar (title1 title2 : String) : Bool :=
  let t1 := wordSet title1
  let t2 := wordSet title2
  if t1.card = 0 ∨ t2.card = 0 then false
  else decide ((1 : ℚ)/2 < ((t1 ∩ t2).card : ℚ) / ((t1 ∪ t2).card : ℚ))

/-- Inner loop of `_merge_task_extractions` (lines 262-271): walk the
already-merged list looking for the first task similar to the rule task;
if found, apply the backfill there and report the updated list, else
report `none`. -/
def insertRuleTask (ruleTask : Task) : List Task → Option (List Task)
  | [] => none
  | mergedTask :: rest =>
    if areTasksSimilar ruleTask.title mergedTask.title then
      some (backfillDate mergedTask ruleTask :: rest)
    else (insertRuleTask ruleTask rest).map (mergedTask :: ·)

/-- One step of the merge: a duplicate rule task updates the merged list in
place, a fresh rule task is appended. -/
def mergeStep (merged : List Task) (ruleTask : Task) : List Task :=
  match insertRuleTask ruleTask merged with
  | some updated => updated
  | none => merged ++ [ruleTask]

/-- Embeds `_merge_task_extractions` (task_extractor.py lines 252-280):
model tasks first, then each rule task is merged in turn.  The
`try/except` fallback of the source is unreachable in the model because
every step is total. -/
def mergeTaskExtractions (ruleTasks aiTasks : List Task) : List Task :=
  ruleTasks.foldl mergeStep aiTasks

/-- Embeds `_find_related_goal` (task_extractor.py lines 337-366): best
goal by Jaccard similarity of title+description word sets, kept only when
the score strictly exceeds both the running best (initially 0) and 0.3. -/
def findRelatedGoal (task : Task) (userGoals : List Goal) : Option Goal :=
  let allTaskWords := wordSet task.title ∪ wordSet task.description
  (userGoals.foldl (fun (acc : Option Goal × ℚ) goal =>
    let allGoalWords := wordSet goal.title ∪ wordSet goal.description
    let unionCard := (allTaskWords ∪ allGoalWords).card
    if 0 < unionCard then
      let score : ℚ := ((allTaskWords ∩ allGoalWords).card : ℚ) / (unionCard : ℚ)
      if acc.2 < score ∧ 3/10 < score then (some goal, score) else acc
    else acc) (none, 0)).1

/-- A document of the `user_behavior_profiles` collection with the field
read by `_adjust_priority_by_profile`. -/
structure BehaviorProfile where
  procrastination_tendency : Option String
  deriving Repr, DecidableEq

/-- Embeds `_adjust_priority_by_profile` (task_extractor.py lines 368-390):
a collaborator failure or a missing profile leaves the task unchanged; a
`high` procrastination tendency bumps `basse` to `moyenne` and `moyenne`
to `haute`. -/
def adjustPriorityByProfile (task : Task)
    (behaviorResult : Except String (Option BehaviorProfile)) : Task :=
  match behaviorResult with
  | .error _ => task
  | .ok none => task
  | .ok (some profile) =>
    if profile.procrastination_tendency.getD "medium" = "high" then
      if task.priority = "basse" then { task with priority := "moyenne" }
      else if task.priority = "moyenne" then { task with priority := "haute" }
      else task
    else task

/-- A document of the `onboarding_profiles` collection with the field read
during enrichment. -/
structure UserProfile where
  domain : Option String
  deriving Repr, DecidableEq

/-- Enrichment of a single task (body of the loop in
`_enrich_tasks_with_context`, lines 315-329). -/
def enrichSingleTask (userGoals : List Goal) (userProfile : Option UserProfile)
    (behaviorResult : Except String (Option BehaviorProfile)) (task : Task) : Task :=
  let task :=
    match findRelatedGoal task userGoals with
    | some goal => { task with related_goal_id := some goal.id,
                               related_goal_title := some goal.title }
    | none => task
  let task :=
    match userProfile with
    | some profile => { task with category := some (profile.domain.getD "général") }
    | none => task
  adjustPriorityByProfile task behaviorResult

/-- Embeds `_enrich_tasks_with_context` (task_extractor.py lines 302-335):
a failure of the goals or profile fetch is caught and the tasks are
returned unchanged; otherwise every task is enriched. -/
def enrichTasksWithContext (tasks : List Task)
    (goalsResult : Except String (List Goal))
    (profileResult : Except String (Option UserProfile))
    (behaviorResult : Except String (Option BehaviorProfile)) : List Task :=
  match goalsResult, profileResult with
  | .ok userGoals, .ok userProfile =>
    tasks.map (enrichSingleTask userGoals userProfile behaviorResult)
  | _, _ => tasks

/-- Embeds `_calculate_confidence` (task_extractor.py lines 392-403): 0 for
no tasks, otherwise the mean of the per-task confidences (0.5 when absent)
capped at 1. -/
def calculateConfidence (tasks : List Task) : ℚ :=
  if tasks.isEmpty then 0
  else min ((tasks.map (fun t => t.confidence.getD (1/2))).sum / (tasks.length : ℚ)) 1

/-- The result dictionary of `extract_tasks_from_message`. -/
structure ExtractResult where
  tasks_found : List Task
  extraction_method : String
  confidence_score : ℚ
  error : Option String
  deriving Repr, DecidableEq

/-- Success path of `extract_tasks_from_message` (task_extractor.py lines
51-70): rule pass, model pass, merge, enrichment, confidence.  The
extraction log write absorbs its own failures and does not influence the
result. -/
def extractBody (message : String) (today : Nat)
    (completionResult : Except String String) (parse : String → Option (List Task))
    (goalsResult : Except String (List Goal))
    (profileResult : Except String (Option UserProfile))
    (behaviorResult : Except String (Option BehaviorProfile)) : ExtractResult :=
  let ruleBasedTasks := extractByRules message today
  let aiBasedTasks := extractByAi completionResult parse
  let mergedTasks := mergeTaskExtractions ruleBasedTasks aiBasedTasks
  let enrichedTasks := enrichTasksWithContext mergedTasks goalsResult profileResult behaviorResult
  { tasks_found := enrichedTasks,
    extraction_method := "hybrid",
    confidence_score := calculateConfidence enrichedTasks,
    error := none }

/-- Embeds the top-level `try/except` of `extract_tasks_from_message`
(lines 51-79): an exceptional outcome of the body is converted into a
zero-task, zero-confidence result carrying the error message. -/
def extractTasksFromMessage (bodyOutcome : Except String ExtractResult) : ExtractResult :=
  match bodyOutcome with
  | .ok result => result
  | .error e =>
    { tasks_found := [],
      extraction_method := "error",
      confidence_score := 0,
      error := some e }

/-- Embeds `Except.isOk` for collaborator outcomes. -/
def exceptOk {α : Type} (r : Except String α) : Bool :=
  match r with
  | .ok _ => true
  | .error _ => false

-- Theorems.

/-- C5: the importance score counts the fixed keywords present in the
lower-cased concatenation `message + " " + response` (each keyword counted
once) and equals `min(min(0.2*matches, 0.8) + min(len/1000, 0.2), 1.0)`;
the exception path yields the fallback 0.5 instead of propagating; both
values always lie in [0, 1]. -/
theorem importance_score_formula_fallback_and_bounds (message response : String) :
    (calculateImportanceScore message response =
      min (min (((importanceKeywords.filter
            (fun k => substrOf k (pyLower (message ++ " " ++ response)))).length : ℚ) * (2/10)) (8/10)
          + min (((pyLower (message ++ " " ++ response)).length : ℚ) / 1000) (2/10)) 1) ∧
    0 ≤ calculateImportanceScore message response ∧
    calculateImportanceScore message response ≤ 1 ∧
    importanceScoreGuard (Except.error ()) = 1/2 ∧
    0 ≤ importanceScoreGuard (Except.error ()) ∧
    importanceScoreGuard (Except.error ()) ≤ 1 ∧
    (∀ v, importanceScoreGuard (Except.ok v) = v) := by
  refine ⟨rfl, ?_, ?_, rfl, by norm_num [importanceScoreGuard],
    by norm_num [importanceScoreGuard], fun v => rfl⟩
  · simp only [calculateImportanceScore]
    refine le_min (add_nonneg (le_min ?_ (by norm_num)) (le_min ?_ (by norm_num))) (by norm_num)
    · positivity
    · positivity
  · exact min_le_right _ _

/-- C7: cleanup deletes exactly the records strictly older than the cutoff
`now - daysToKeep` whose importance score is strictly below 0.7, and
returns the deleted count; a record older than the cutoff whose importance
score is at least 0.7 is retained regardless of age. -/
theorem cleanup_old_memories_spec (store : List MemRecord) (now : Int) (daysToKeep : Nat) :
    ((cleanupOldMemories store now daysToKeep).2 =
       store.countP (fun r => decide (r.timestamp < now - daysToKeep) &&
         match r.importance_score with
         | some v => decide (v < 7/10)
         | none => false)) ∧
    (∀ r ∈ store, (r ∈ (cleanupOldMemories store now daysToKeep).1 ↔
       ¬(r.timestamp < now - daysToKeep ∧ ∃ v, r.importance_score = some v ∧ v < 7/10))) ∧
    (∀ r ∈ store, (∀ v, r.importance_score = some v → 7/10 ≤ v) →
       r ∈ (cleanupOldMemories store now daysToKeep).1) := by
  have hmem : ∀ r ∈ store, (r ∈ (cleanupOldMemories store now daysToKeep).1 ↔
      ¬(r.timestamp < now - daysToKeep ∧ ∃ v, r.importance_score = some v ∧ v < 7/10)) := by
    intro r hr
    simp only [cleanupOldMemories, List.mem_filter, hr, true_and, Bool.not_eq_true',
      cleanupShouldDelete]
    cases r.importance_score <;>
      simp [decide_eq_true_eq, not_and, Option.some.injEq]
  refine ⟨?_, hmem, ?_⟩
  · simp only [cleanupOldMemories, List.countP_eq_length_filter]
    rfl
  · intro r hr hkeep
    refine (hmem r hr).mpr ?_
    rintro ⟨_, v, hv, hlt⟩
    exact absurd (hkeep v hv) (not_le.mpr hlt)

/-- C7 witness: with `now = 1000` and a 90-day window, a record aged 100
days with importance 0.8 survives cleanup while a record aged 100 days
with importance 0.4 is deleted, and the deleted count is 1. -/
theorem cleanup_old_memories_witness :
    (⟨none, some (8/10), 900⟩ : MemRecord) ∈
      (cleanupOldMemories [⟨none, some (8/10), 900⟩, ⟨none, some (4/10), 900⟩] 1000 90).1 ∧
    (cleanupOldMemories [⟨none, some (8/10), 900⟩, ⟨none, some (4/10), 900⟩] 1000 90).2 = 1 := by
  have h := cleanup_old_memories_spec
    [⟨none, some (8/10), 900⟩, ⟨none, some (4/10), 900⟩] 1000 90
  refine ⟨h.2.2 _ (by simp) ?_, ?_⟩
  · intro v hv
    injection hv with hv
    rw [← hv]
    norm_num
  · rw [h.1]
    with_unfolding_all decide

/-- C8 counterexample: on 2024-03-05 with a 90-day window, the
day-of-month subtraction the claim attributes to cleanup and the
analytics windows underflows (raises), while the timedelta cutoff the
cited functions actually use is the calendar-correct 2023-12-06, and
`cleanup_old_memories` runs fine there, deleting a 100-day-old
low-importance record. -/
theorem day_cutoff_claim_counterexample :
    replaceDayCutoff 2024 3 5 90 = none ∧
    timedeltaCutoff ((daysFromCivil 2024 3 5 : Nat) : Int) 90
      = ((daysFromCivil 2023 12 6 : Nat) : Int) ∧
    cleanupOldMemories [⟨none, some (4/10), ((daysFromCivil 2023 11 26 : Nat) : Int)⟩]
        ((daysFromCivil 2024 3 5 : Nat) : Int) 90 = ([], 1) := by
  exact ⟨by decide, by decide, by with_unfolding_all decide⟩

/-- C8 amended: the cutoffs of cleanup_old_memories, get_memory_analytics
and get_extraction_analytics subtract a timedelta from the absolute
instant, which is total and calendar-correct; the direct day-of-month
subtraction lives in cleanup_inactive_conversations
(conversation_manager.py) and get_prompt_analytics (ai_prompt_system.py),
where it underflows whenever the day count reaches the current
day-of-month, making the operation silently return its degraded value. -/
theorem day_cutoff_amended_spec :
    (∀ (now : Int) (days : Nat), timedeltaCutoff now days = now - days) ∧
    replaceDayCutoff 2024 3 20 15 = some (2024, 3, 5) ∧
    replaceDayCutoff 2024 3 5 90 = none ∧
    cleanupInactiveConversations [⟨((daysFromCivil 2023 1 1 : Nat) : Int), true, 0⟩] 2024 3 5 90 = 0 ∧
    cleanupInactiveConversations [⟨((daysFromCivil 2023 1 1 : Nat) : Int), true, 0⟩] 2024 3 25 20 = 1 ∧
    memoryAnalyticsWindow [⟨none, none, ((daysFromCivil 2024 3 1 : Nat) : Int)⟩]
        ((daysFromCivil 2024 3 5 : Nat) : Int) 30
      = [⟨none, none, ((daysFromCivil 2024 3 1 : Nat) : Int)⟩] := by
  exact ⟨fun now days => rfl, by decide, by decide, by decide, by decide, by decide⟩

/-- C4: the top-level try/except of extract_tasks_from_message converts an
exceptional body outcome into an empty-task, zero-confidence result
carrying the error message, and passes a normal body result through
unchanged, so extraction never raises past its boundary. -/
theorem extract_top_level_catch_spec :
    (∀ e, extractTasksFromMessage (Except.error e) =
       { tasks_found := [], extraction_method := "error",
         confidence_score := 0, error := some e }) ∧
    (∀ (message : String) (today : Nat) (completionResult : Except String String)
       (parse : String → Option (List Task)) (goalsResult : Except String (List Goal))
       (profileResult : Except String (Option UserProfile))
       (behaviorResult : Except String (Option BehaviorProfile)),
       extractTasksFromMessage (Except.ok (extractBody message today completionResult parse
         goalsResult profileResult behaviorResult)) =
       extractBody message today completionResult parse goalsResult profileResult behaviorResult) := by
  exact ⟨fun e => rfl, fun _ _ _ _ _ _ _ => rfl⟩

/-- C10: store_conversation_memory returns true exactly when the embedding
call and the database insert both succeed; the synthesis-trigger outcomes
(document count, profile update) never influence the returned boolean,
because the trigger absorbs its own failures. -/
theorem store_memory_return_spec (message response : String) (now : Int)
    (embedResult : Except String (List ℚ)) (insertResult : Except String Unit)
    (countResult : Except String Nat) (profileUpdate : Except String Unit) :
    storeConversationMemory message response now embedResult insertResult countResult profileUpdate
      = (exceptOk embedResult && exceptOk insertResult) := by
  cases embedResult <;> cases insertResult <;> rfl

/-- C6: relative-date resolution maps the literal cues (in the priority
order of the source) to today plus 0, 1, 3, 7 and 15 days; the first
weekday name present maps to the next strictly-future occurrence of that
weekday, a full week ahead when it equals the weekday of today; no cue
yields no date; and a resolved date is never before today. -/
theorem resolve_relative_date_spec (sentence : String) (today : Nat) :
    (substrOf "aujourd\x27hui" sentence = true →
       extractDateFromSentence sentence today = some (today + 0)) ∧
    (substrOf "aujourd\x27hui" sentence = false → substrOf "demain" sentence = true →
       extractDateFromSentence sentence today = some (today + 1)) ∧
    (substrOf "aujourd\x27hui" sentence = false → substrOf "demain" sentence = false →
       substrOf "cette semaine" sentence = true →
       extractDateFromSentence sentence today = some (today + 3)) ∧
    (substrOf "aujourd\x27hui" sentence = false → substrOf "demain" sentence = false →
       substrOf "cette semaine" sentence = false →
       substrOf "la semaine prochaine" sentence = true →
       extractDateFromSentence sentence today = some (today + 7)) ∧
    (substrOf "aujourd\x27hui" sentence = false → substrOf "demain" sentence = false →
       substrOf "cette semaine" sentence = false →
       substrOf "la semaine prochaine" sentence = false →
       substrOf "ce mois" sentence = true →
       extractDateFromSentence sentence today = some (today + 15)) ∧
    (∀ name d, substrOf "aujourd\x27hui" sentence = false → substrOf "demain" sentence = false →
       substrOf "cette semaine" sentence = false →
       substrOf "la semaine prochaine" sentence = false →
       substrOf "ce mois" sentence = false →
       daysMap.find? (fun p => substrOf p.1 sentence) = some (name, d) →
       ∃ ahead, extractDateFromSentence sentence today = some (today + ahead) ∧
         1 ≤ ahead ∧ ahead ≤ 7 ∧ (today + ahead) % 7 = d ∧
         (weekdayOf today = d → ahead = 7)) ∧
    (substrOf "aujourd\x27hui" sentence = false → substrOf "demain" sentence = false →
       substrOf "cette semaine" sentence = false →
       substrOf "la semaine prochaine" sentence = false →
       substrOf "ce mois" sentence = false →
       daysMap.find? (fun p => substrOf p.1 sentence) = none →
       extractDateFromSentence sentence today = none) ∧
    (∀ dte, extractDateFromSentence sentence today = some dte → today ≤ dte) := by
  refine ⟨?_, ?_, ?_, ?_, ?_, ?_, ?_, ?_⟩
  · intro h1
    simp [extractDateFromSentence, h1]
  · intro h1 h2
    simp [extractDateFromSentence, h1, h2]
  · intro h1 h2 h3
    simp [extractDateFromSentence, h1, h2, h3]
  · intro h1 h2 h3 h4
    simp [extractDateFromSentence, h1, h2, h3, h4]
  · intro h1 h2 h3 h4 h5
    simp [extractDateFromSentence, h1, h2, h3, h4, h5]
  · intro name d h1 h2 h3 h4 h5 hfind
    have hmem := List.mem_of_find?_eq_some hfind
    have hd : d < 7 := by
      simp only [daysMap, List.mem_cons, List.not_mem_nil, or_false, Prod.mk.injEq] at hmem
      rcases hmem with ⟨_, rfl⟩ | ⟨_, rfl⟩ | ⟨_, rfl⟩ | ⟨_, rfl⟩ | ⟨_, rfl⟩ | ⟨_, rfl⟩ | ⟨_, rfl⟩ <;>
        norm_num
    simp only [extractDateFromSentence, h1, h2, h3, h4, h5, Bool.false_eq_true, if_false, hfind]
    have hw : today % 7 < 7 := Nat.mod_lt _ (by norm_num)
    by_cases hle : (d : Int) - (weekdayOf today : Nat) ≤ 0
    · rw [if_pos hle]
      refine ⟨((d : Int) - (weekdayOf today : Nat) + 7).toNat, rfl, ?_, ?_, ?_, ?_⟩ <;>
        simp only [weekdayOf] at * <;> omega
    · rw [if_neg hle]
      refine ⟨((d : Int) - (weekdayOf today : Nat)).toNat, rfl, ?_, ?_, ?_, ?_⟩ <;>
        simp only [weekdayOf] at * <;> omega
  · intro h1 h2 h3 h4 h5 hfind
    simp [extractDateFromSentence, h1, h2, h3, h4, h5, hfind]
  · intro dte h
    rw [extractDateFromSentence] at h
    repeat' split at h
    all_goals first
      | (obtain rfl := Option.some.inj h; omega)
      | cases h

/-- C6 witness: `demain` on 2024-01-10 resolves to 2024-01-11, and
`mercredi` on Wednesday 2024-01-10 resolves to 2024-01-17, a full week
ahead rather than the same day. -/
theorem resolve_relative_date_witness :
    extractDateFromSentence "rendez-vous demain" (daysFromCivil 2024 1 10)
      = some (daysFromCivil 2024 1 11) ∧
    extractDateFromSentence "on se voit mercredi" (daysFromCivil 2024 1 10)
      = some (daysFromCivil 2024 1 17) := by
  constructor
  · have h := (resolve_relative_date_spec "rendez-vous demain" (daysFromCivil 2024 1 10)).2.1
      (by decide) (by decide)
    rw [h]
    decide
  · obtain ⟨ahead, heq, -, -, -, hsame⟩ :=
      (resolve_relative_date_spec "on se voit mercredi" (daysFromCivil 2024 1 10)).2.2.2.2.2.1
        "mercredi" 2 (by decide) (by decide) (by decide) (by decide) (by decide) (by decide)
    rw [heq, hsame (by decide)]
    decide

/-- Jaccard similarity of two word sets as the claim states it:
intersection size divided by union size. -/
def jaccardSim (a b : Finset String) : ℚ :=
  ((a ∩ b).card : ℚ) / ((a ∪ b).card : ℚ)

/-- The similarity test of the source agrees with the claim-side Jaccard
formulation, including when a word set is empty (division by zero yields
0 in the claim reading, false in both). -/
theorem areTasksSimilar_eq_jaccard (title1 title2 : String) :
    areTasksSimilar title1 title2
      = decide ((1 : ℚ)/2 < jaccardSim (wordSet title1) (wordSet title2)) := by
  rw [areTasksSimilar, jaccardSim]
  split
  · rename_i h
    rcases h with h | h <;>
    · rw [Finset.card_eq_zero] at h
      simp [h]
  · rfl

/-- Walking the merged list finds no similar task exactly when no merged
task is similar to the rule task. -/
theorem insertRuleTask_eq_none (rt : Task) (merged : List Task) :
    insertRuleTask rt merged = none ↔
      ∀ mt ∈ merged, areTasksSimilar rt.title mt.title = false := by
  induction merged with
  | nil => simp [insertRuleTask]
  | cons mt rest ih =>
    rw [insertRuleTask]
    split
    · rename_i hsim
      simp [hsim]
    · rename_i hsim
      have hsim' : areTasksSimilar rt.title mt.title = false := by simpa using hsim
      constructor
      · intro hnone t ht
        rcases List.mem_cons.mp ht with rfl | ht'
        · exact hsim'
        · have hrest : insertRuleTask rt rest = none := by
            cases h : insertRuleTask rt rest with
            | none => rfl
            | some _ => rw [h] at hnone; simp at hnone
          exact (ih.mp hrest) t ht'
      · intro hall
        have hrest : insertRuleTask rt rest = none :=
          ih.mpr (fun t ht => hall t (List.mem_cons_of_mem _ ht))
        rw [hrest]
        rfl

/-- Walking the merged list stops at the first similar task and backfills
there. -/
theorem insertRuleTask_first (rt : Task) (merged : List Task) (i : Nat)
    (h : i < merged.length)
    (hprev : ∀ j (hj : j < merged.length), j < i →
      areTasksSimilar rt.title (merged.get ⟨j, hj⟩).title = false)
    (hsim : areTasksSimilar rt.title (merged.get ⟨i, h⟩).title = true) :
    insertRuleTask rt merged = some (merged.set i (backfillDate (merged.get ⟨i, h⟩) rt)) := by
  induction merged generalizing i with
  | nil => simp at h
  | cons mt rest ih =>
    cases i with
    | zero =>
      rw [insertRuleTask, if_pos (by simpa using hsim)]
      rfl
    | succ i =>
      have h0 : areTasksSimilar rt.title mt.title = false := by
        simpa using hprev 0 (by simp) (Nat.succ_pos i)
      rw [insertRuleTask, if_neg (by simp [h0])]
      rw [ih i (by simpa using h)
        (fun j hj hji => by simpa using hprev (j + 1) (by simpa using hj) (by omega))
        (by simpa using hsim)]
      rfl

/-- Rule task of the Buy-milk merge example. -/
def ruleMilkTask : Task :=
  { title := "buy some milk", description := "buy some milk", priority := "moyenne",
    estimated_date := some "2024-01-11", extraction_method := "rules",
    confidence := some (7/10) }

/-- Model task of the Buy-milk merge example. -/
def aiMilkTask : Task :=
  { title := "Buy milk", description := "", priority := "haute",
    estimated_date := none, extraction_method := "ai", confidence := some (85/100) }

/-- C2: the merge places model tasks first; each rule task is compared to
the already-merged tasks by title-token Jaccard similarity exactly as the
claim words it; a rule task similar (above 0.5) to a first merged task is
dropped there, backfilling the estimated date, and is appended otherwise;
and one model task titled Buy milk absorbs a rule task titled buy some
milk (Jaccard 2/3), inheriting its estimated date. -/
theorem merge_dedup_spec :
    (∀ title1 title2, areTasksSimilar title1 title2
       = decide ((1 : ℚ)/2 < jaccardSim (wordSet title1) (wordSet title2))) ∧
    (∀ ruleTasks aiTasks, mergeTaskExtractions ruleTasks aiTasks
       = ruleTasks.foldl mergeStep aiTasks) ∧
    (∀ merged rt, (∀ mt ∈ merged, areTasksSimilar rt.title mt.title = false) →
       mergeStep merged rt = merged ++ [rt]) ∧
    (∀ merged rt i (h : i < merged.length),
       (∀ j (hj : j < merged.length), j < i →
          areTasksSimilar rt.title (merged.get ⟨j, hj⟩).title = false) →
       areTasksSimilar rt.title (merged.get ⟨i, h⟩).title = true →
       mergeStep merged rt = merged.set i (backfillDate (merged.get ⟨i, h⟩) rt)) ∧
    jaccardSim (wordSet "buy some milk") (wordSet "Buy milk") = 2/3 ∧
    mergeTaskExtractions [ruleMilkTask] [aiMilkTask]
      = [{ aiMilkTask with estimated_date := some "2024-01-11" }] := by
  refine ⟨areTasksSimilar_eq_jaccard, fun _ _ => rfl, ?_, ?_, ?_, ?_⟩
  · intro merged rt hnone
    rw [mergeStep, (insertRuleTask_eq_none rt merged).mpr hnone]
  · intro merged rt i h hprev hsim
    rw [mergeStep, insertRuleTask_first rt merged i h hprev hsim]
  · with_unfolding_all decide
  · with_unfolding_all decide

/-- C2 witness: a rule task with no similar merged task is appended (here
to an empty merged list), and the Buy-milk rule task is absorbed by the
first (index 0) similar model task with its estimated date backfilled. -/
theorem merge_dedup_witness :
    mergeStep [] ruleMilkTask = [ruleMilkTask] ∧
    mergeStep [aiMilkTask] ruleMilkTask
      = [{ aiMilkTask with estimated_date := some "2024-01-11" }] := by
  constructor
  · exact merge_dedup_spec.2.2.1 [] ruleMilkTask (by simp)
  · have h := merge_dedup_spec.2.2.2.1 [aiMilkTask] ruleMilkTask 0 (by simp)
      (fun j hj hji => by omega) (by with_unfolding_all decide)
    rw [h]
    with_unfolding_all decide

/-- Every pair in the retrieval result comes from a stored record with an
embedding whose similarity passed the threshold. -/
theorem mem_relevantFilter (sim : List ℚ → List ℚ → ℚ) (queryEmbedding : List ℚ)
    (memories : List MemRecord) (minSimilarity : ℚ) (p : MemRecord × ℚ)
    (hp : p ∈ relevantFilter sim queryEmbedding memories minSimilarity) :
    p.1 ∈ memories ∧ ∃ e, p.1.embedding = some e ∧ p.2 = sim queryEmbedding e
      ∧ minSimilarity ≤ p.2 := by
  rw [relevantFilter, List.mem_filterMap] at hp
  obtain ⟨m, hm, hf⟩ := hp
  cases hemb : m.embedding with
  | none => rw [hemb] at hf; cases hf
  | some e =>
    rw [hemb] at hf
    dsimp only at hf
    by_cases hge : minSimilarity ≤ sim queryEmbedding e
    · rw [if_pos hge] at hf
      obtain rfl := Option.some.inj hf
      exact ⟨hm, e, hemb, rfl, hge⟩
    · rw [if_neg hge] at hf
      cases hf

/-- C1: retrieval returns at most `limit` pairs; every returned record was
stored with an embedding and has similarity at least `minSimilarity`; the
result is sorted descending by `0.7*similarity + 0.3*importance`; records
without an embedding are skipped rather than erroring (the operation is
total and only embedding-carrying records appear); and when no stored
record passes the similarity filter the result is empty. -/
theorem retrieve_relevant_spec (sim : List ℚ → List ℚ → ℚ) (queryEmbedding : List ℚ)
    (memories : List MemRecord) (limit : Nat) (minSimilarity : ℚ) :
    (retrieveRelevantMemories sim queryEmbedding memories limit minSimilarity).length ≤ limit ∧
    (∀ p ∈ retrieveRelevantMemories sim queryEmbedding memories limit minSimilarity,
       p.1 ∈ memories ∧ ∃ e, p.1.embedding = some e ∧ p.2 = sim queryEmbedding e
         ∧ minSimilarity ≤ p.2) ∧
    (retrieveRelevantMemories sim queryEmbedding memories limit minSimilarity).Pairwise
       (fun a b => sortKey b ≤ sortKey a) ∧
    ((∀ m ∈ memories, ∀ e, m.embedding = some e → sim queryEmbedding e < minSimilarity) →
       retrieveRelevantMemories sim queryEmbedding memories limit minSimilarity = []) := by
  by_cases hemp : memories.isEmpty
  · simp [retrieveRelevantMemories, hemp]
  · have hunfold : retrieveRelevantMemories sim queryEmbedding memories limit minSimilarity
        = ((relevantFilter sim queryEmbedding memories minSimilarity).mergeSort
            (fun a b => decide (sortKey b ≤ sortKey a))).take limit := by
      rw [retrieveRelevantMemories, if_neg (by simp [hemp])]
    refine ⟨?_, ?_, ?_, ?_⟩
    · rw [hunfold, List.length_take]
      exact Nat.min_le_left _ _
    · intro p hp
      rw [hunfold] at hp
      have hp1 : p ∈ (relevantFilter sim queryEmbedding memories minSimilarity).mergeSort
          (fun a b => decide (sortKey b ≤ sortKey a)) := (List.take_sublist _ _).subset hp
      exact mem_relevantFilter sim queryEmbedding memories minSimilarity p
        (List.mem_mergeSort.mp hp1)
    · rw [hunfold]
      have hsorted := @List.sorted_mergeSort (MemRecord × ℚ)
        (fun a b => decide (sortKey b ≤ sortKey a))
        (fun a b c hab hbc => by
          simp only [decide_eq_true_eq] at *
          exact le_trans hbc hab)
        (fun a b => by
          simp only [Bool.or_eq_true, decide_eq_true_eq]
          exact le_total (sortKey b) (sortKey a))
        (relevantFilter sim queryEmbedding memories minSimilarity)
      exact List.Pairwise.sublist (List.take_sublist _ _)
        (hsorted.imp (fun h => by simpa using h))
    · intro hnone
      have hrel : relevantFilter sim queryEmbedding memories minSimilarity = [] := by
        rw [relevantFilter, List.filterMap_eq_nil_iff]
        intro m hm
        cases hemb : m.embedding with
        | none => rfl
        | some e =>
          dsimp only
          rw [if_neg (not_le.mpr (hnone m hm e hemb))]
      rw [hunfold, hrel, List.mergeSort_nil, List.take_nil]

/-- C1 witness: with a constant similarity of 1 the single stored record
is within the limit, and with a constant similarity of 0 (below the 0.3
threshold) the result is empty. -/
theorem retrieve_relevant_witness :
    (retrieveRelevantMemories (fun _ _ => (1 : ℚ)) [1]
       [⟨some [1], some (1/2), 0⟩] 3 (3/10)).length ≤ 3 ∧
    retrieveRelevantMemories (fun _ _ => (0 : ℚ)) [1]
       [⟨some [1], some (1/2), 0⟩] 3 (3/10) = [] := by
  refine ⟨(retrieve_relevant_spec (fun _ _ => (1 : ℚ)) [1]
    [⟨some [1], some (1/2), 0⟩] 3 (3/10)).1, ?_⟩
  refine (retrieve_relevant_spec (fun _ _ => (0 : ℚ)) [1]
    [⟨some [1], some (1/2), 0⟩] 3 (3/10)).2.2.2 ?_
  intro m hm e he
  norm_num

/-- C9: a record with an embedding above the threshold but without an
importance score is not skipped: it passes the similarity filter, its sort
key values the missing importance as 0.5, and alone in the store it is
returned. -/
theorem missing_importance_default_spec (sim : List ℚ → List ℚ → ℚ)
    (queryEmbedding : List ℚ) (memories : List MemRecord) (minSimilarity : ℚ)
    (m : MemRecord) (e : List ℚ) (hm : m ∈ memories) (he : m.embedding = some e)
    (himp : m.importance_score = none) (hs : minSimilarity ≤ sim queryEmbedding e) :
    (m, sim queryEmbedding e) ∈ relevantFilter sim queryEmbedding memories minSimilarity ∧
    sortKey (m, sim queryEmbedding e)
      = (7/10) * sim queryEmbedding e + (3/10) * (1/2) ∧
    (∀ limit, 1 ≤ limit →
       retrieveRelevantMemories sim queryEmbedding [m] limit minSimilarity
         = [(m, sim queryEmbedding e)]) := by
  refine ⟨?_, ?_, ?_⟩
  · rw [relevantFilter, List.mem_filterMap]
    refine ⟨m, hm, ?_⟩
    rw [he]
    dsimp only
    rw [if_pos hs]
  · rw [sortKey, himp]
    dsimp only [Option.getD]
    ring
  · intro limit hl
    have hrel : relevantFilter sim queryEmbedding [m] minSimilarity
        = [(m, sim queryEmbedding e)] := by
      rw [relevantFilter]
      simp only [List.filterMap_cons, List.filterMap_nil]
      rw [he]
      dsimp only
      rw [if_pos hs]
    have hunf : retrieveRelevantMemories sim queryEmbedding [m] limit minSimilarity
        = ((relevantFilter sim queryEmbedding [m] minSimilarity).mergeSort
            (fun a b => decide (sortKey b ≤ sortKey a))).take limit := by
      rw [retrieveRelevantMemories, if_neg (by simp)]
    rw [hunf, hrel, List.mergeSort_singleton,
      List.take_of_length_le (by simpa using hl)]

/-- C9 witness: a record with embedding `[1]`, no importance score and
similarity 1 against the query is returned, with sort key
`0.7*1 + 0.3*0.5`. -/
theorem missing_importance_default_witness :
    retrieveRelevantMemories (fun _ _ => (1 : ℚ)) [1] [⟨some [1], none, 0⟩] 5 (3/10)
      = [(⟨some [1], none, 0⟩, 1)] ∧
    sortKey ((⟨some [1], none, 0⟩ : MemRecord), (1 : ℚ))
      = (7/10) * 1 + (3/10) * (1/2) := by
  have h := missing_importance_default_spec (fun _ _ => (1 : ℚ)) [1]
    [⟨some [1], none, 0⟩] (3/10) ⟨some [1], none, 0⟩ [1]
    (by simp) rfl rfl (by norm_num)
  exact ⟨h.2.2 5 (by norm_num), h.2.1⟩

/-- Every task produced by the rule pass is tagged with extraction method
`rules`. -/
theorem extractByRules_method (message : String) (today : Nat) :
    ∀ t ∈ extractByRules message today, t.extraction_method = "rules" := by
  intro t ht
  rw [extractByRules, List.mem_filterMap] at ht
  obtain ⟨s0, _, hf⟩ := ht
  dsimp only at hf
  split at hf
  · cases hf
  · split at hf
    · cases hf
    · rw [parseTaskFromSentence] at hf
      split at hf
      · cases hf
      · obtain rfl := Option.some.inj hf
        rfl

/-- The backfill step only changes the estimated date, so it preserves the
extraction method. -/
theorem backfillDate_method (x r : Task) :
    (backfillDate x r).extraction_method = x.extraction_method := by
  rw [backfillDate]
  split <;> rfl

/-- Walking the merged list preserves a property that survives the
backfill step. -/
theorem insertRuleTask_mem {P : Task → Prop} (rt : Task)
    (hback : ∀ x, P x → P (backfillDate x rt)) :
    ∀ (merged out : List Task), (∀ t ∈ merged, P t) →
      insertRuleTask rt merged = some out → ∀ t ∈ out, P t := by
  intro merged
  induction merged with
  | nil => intro out _ hins; cases hins
  | cons mt rest ih =>
    intro out hall hins t ht
    rw [insertRuleTask] at hins
    split at hins
    · obtain rfl := Option.some.inj hins
      rcases List.mem_cons.mp ht with rfl | ht'
      · exact hback mt (hall mt (List.mem_cons_self mt rest))
      · exact hall t (List.mem_cons_of_mem mt ht')
    · cases hrest : insertRuleTask rt rest with
      | none => rw [hrest] at hins; cases hins
      | some out' =>
        rw [hrest] at hins
        obtain rfl := Option.some.inj hins
        rcases List.mem_cons.mp ht with rfl | ht'
        · exact hall t (List.mem_cons_self t rest)
        · exact ih out' (fun u hu => hall u (List.mem_cons_of_mem mt hu)) hrest t ht'

/-- A property preserved by the backfill step and holding on both input
lists holds on every merged task. -/
theorem mergeTaskExtractions_mem {P : Task → Prop}
    (hback : ∀ x r, P x → P (backfillDate x r)) :
    ∀ (ruleTasks aiTasks : List Task), (∀ t ∈ ruleTasks, P t) →
      (∀ t ∈ aiTasks, P t) → ∀ t ∈ mergeTaskExtractions ruleTasks aiTasks, P t := by
  intro ruleTasks
  induction ruleTasks with
  | nil => intro aiTasks _ hai; simpa [mergeTaskExtractions] using hai
  | cons r rest ih =>
    intro aiTasks hr hai t ht
    rw [mergeTaskExtractions, List.foldl_cons] at ht
    have hstep : ∀ u ∈ mergeStep aiTasks r, P u := by
      intro u hu
      rw [mergeStep] at hu
      cases hins : insertRuleTask r aiTasks with
      | some updated =>
        rw [hins] at hu
        exact insertRuleTask_mem r (fun x hx => hback x r hx) aiTasks updated hai hins u hu
      | none =>
        rw [hins] at hu
        rcases List.mem_append.mp hu with hu' | hu'
        · exact hai u hu'
        · obtain rfl := List.mem_singleton.mp hu'
          exact hr u (List.mem_cons_self u rest)
    exact ih (mergeStep aiTasks r) (fun u hu => hr u (List.mem_cons_of_mem r hu)) hstep t ht

/-- Enrichment never changes the extraction method of a task. -/
theorem enrichSingleTask_method (userGoals : List Goal) (userProfile : Option UserProfile)
    (behaviorResult : Except String (Option BehaviorProfile)) (t : Task) :
    (enrichSingleTask userGoals userProfile behaviorResult t).extraction_method
      = t.extraction_method := by
  have hadj : ∀ u : Task, (adjustPriorityByProfile u behaviorResult).extraction_method
      = u.extraction_method := by
    intro u
    rcases behaviorResult with e | op
    · rfl
    · rcases op with _ | p
      · rfl
      · show (if p.procrastination_tendency.getD "medium" = "high" then
            if u.priority = "basse" then { u with priority := "moyenne" }
            else if u.priority = "moyenne" then { u with priority := "haute" }
            else u
          else u).extraction_method = u.extraction_method
        repeat' split
        all_goals rfl
  simp only [enrichSingleTask]
  cases hg : findRelatedGoal t userGoals <;> cases userProfile <;>
    simp only [hg] <;> rw [hadj]

/-- Every task surviving enrichment keeps its extraction method. -/
theorem enrichTasksWithContext_method (tasks : List Task)
    (goalsResult : Except String (List Goal))
    (profileResult : Except String (Option UserProfile))
    (behaviorResult : Except String (Option BehaviorProfile)) :
    ∀ t ∈ enrichTasksWithContext tasks goalsResult profileResult behaviorResult,
      ∃ u ∈ tasks, t.extraction_method = u.extraction_method := by
  intro t ht
  rcases goalsResult with e | userGoals
  · exact ⟨t, by simpa [enrichTasksWithContext] using ht, rfl⟩
  · rcases profileResult with e | userProfile
    · exact ⟨t, by simpa [enrichTasksWithContext] using ht, rfl⟩
    · rw [show enrichTasksWithContext tasks (Except.ok userGoals) (Except.ok userProfile)
          behaviorResult
          = tasks.map (enrichSingleTask userGoals userProfile behaviorResult) from rfl] at ht
      obtain ⟨u, hu, rfl⟩ := List.mem_map.mp ht
      exact ⟨u, hu, enrichSingleTask_method userGoals userProfile behaviorResult u⟩

/-- C3: when the completion text fails JSON parsing, the model pass
contributes zero tasks and extraction is total; the result holds exactly
the rule-derived tasks (after merge and enrichment), every returned task
is tagged `rules`, and the confidence score is computed solely over the
surviving tasks. -/
theorem json_failure_yields_rule_tasks_only (message : String) (today : Nat)
    (text : String) (parse : String → Option (List Task))
    (goalsResult : Except String (List Goal))
    (profileResult : Except String (Option UserProfile))
    (behaviorResult : Except String (Option BehaviorProfile))
    (hparse : parse text = none) :
    extractByAi (Except.ok text) parse = [] ∧
    extractBody message today (Except.ok text) parse goalsResult profileResult behaviorResult
      = { tasks_found := enrichTasksWithContext
            (mergeTaskExtractions (extractByRules message today) [])
            goalsResult profileResult behaviorResult,
          extraction_method := "hybrid",
          confidence_score := calculateConfidence (enrichTasksWithContext
            (mergeTaskExtractions (extractByRules message today) [])
            goalsResult profileResult behaviorResult),
          error := none } ∧
    (∀ t ∈ (extractBody message today (Except.ok text) parse goalsResult profileResult
        behaviorResult).tasks_found, t.extraction_method = "rules") := by
  have hai : extractByAi (Except.ok text) parse = [] := by
    rw [extractByAi, hparse]
  have hbody : extractBody message today (Except.ok text) parse goalsResult profileResult
      behaviorResult
      = { tasks_found := enrichTasksWithContext
            (mergeTaskExtractions (extractByRules message today) [])
            goalsResult profileResult behaviorResult,
          extraction_method := "hybrid",
          confidence_score := calculateConfidence (enrichTasksWithContext
            (mergeTaskExtractions (extractByRules message today) [])
            goalsResult profileResult behaviorResult),
          error := none } := by
    rw [extractBody, hai]
  refine ⟨hai, hbody, ?_⟩
  intro t ht
  rw [hbody] at ht
  obtain ⟨u, hu, hmeth⟩ := enrichTasksWithContext_method _ _ _ _ t ht
  rw [hmeth]
  refine @mergeTaskExtractions_mem (fun x => x.extraction_method = "rules")
    (fun x r hx => by
      show (backfillDate x r).extraction_method = "rules"
      rw [backfillDate_method]
      exact hx)
    (extractByRules message today) [] (extractByRules_method message today)
    (by intro v hv; cases hv) u hu

/-- C3 witness: with a parse that always fails, extracting from a message
holding one rule-detectable task returns exactly that task, tagged rules,
with confidence 0.7. -/
theorem json_failure_witness :
    extractBody "Je vais acheter du lait demain." (daysFromCivil 2024 1 10)
      (Except.ok "oops") (fun _ => none) (Except.ok []) (Except.ok none) (Except.ok none)
      = { tasks_found := [{ title := "Du lait demain",
                            description := "je vais acheter du lait demain",
                            priority := "moyenne", estimated_date := some "2024-01-11",
                            extraction_method := "rules", confidence := some (7/10) }],
          extraction_method := "hybrid",
          confidence_score := 7/10,
          error := none } := by
  have h := json_failure_yields_rule_tasks_only "Je vais acheter du lait demain."
    (daysFromCivil 2024 1 10) "oops" (fun _ => none)
    (Except.ok []) (Except.ok none) (Except.ok none) rfl
  rw [h.2.1]
  with_unfolding_all decide

end AIM
